import Mathlib

/-
Shallow embedding of the user-credential service in `src/main.py` (FastAPI app
backed by a relational store, `src/db.py`).

Modelling conventions:
- A `User` record carries the four columns of the `users` table; the store is
  the list of rows in insertion (primary-key) order, so `List.find?` embeds
  `select(...).where(...)` followed by `.first()`.
- Each endpoint becomes a state-passing function `Store -> ... -> Except ApiError r x Store`;
  a raised `HTTPException` is an `Except.error` carrying the unchanged store.
- `validate_password` in the source evaluates `password[0]` with no length
  guard; on the empty string Python raises `IndexError`.  The embedding returns
  `Option Bool`: `none` is the uncaught `IndexError`, `some b` a normal return.
  An endpoint that calls the validator on an empty password therefore
  propagates `ApiError.indexError` (Python: an unhandled 500), which is not one
  of the documented error kinds.
- `secrets.token_hex(16)` draws 16 random bytes and hex-encodes them in
  lowercase; the embedding takes the drawn bytes as an explicit argument
  (`token_hex`), making the random generator an oracle parameter.
-/

namespace Loging

/-- One row of the `users` table declared in `src/main.py` (class `User`):
integer primary key, unique email, clear-text password, nullable reset token. -/
structure User where
  id : Nat
  email : String
  password : String
  reset_token : Option String
deriving DecidableEq, Repr

/-- The store: the rows of the `users` table in primary-key order. -/
abbrev Store := List User

/-- The error outcomes an endpoint can produce.  The first five are the
documented `HTTPException`s raised in `src/main.py`; `indexError` is the
uncaught Python `IndexError` that `validate_password` raises on an empty
password (not a documented kind). -/
inductive ApiError where
  | weakPassword
  | emailTaken
  | invalidCredentials
  | emailNotFound
  | invalidToken
  | indexError
deriving DecidableEq, Repr

/-- `validate_password` from `src/main.py` lines 40-53, on the character list
of the password.  The source evaluates `password[0].isupper()` first: on the
empty list that indexing raises `IndexError`, embedded as `none`.  Otherwise
the three checks run in source order: first character uppercase, an `'@'`
somewhere, a decimal digit somewhere. -/
def validate_chars : List Char → Option Bool
  | [] => none
  | c :: rest =>
    if !c.isUpper then some false
    else if !((c :: rest).contains '@') then some false
    else if !((c :: rest).any Char.isDigit) then some false
    else some true

/-- `validate_password` on a `String` (the source takes `password: str`). -/
def validate_password (password : String) : Option Bool :=
  validate_chars password.data

/-- Lowercase hex digit for a nibble, as Python's `hex` rendering uses:
0-9 then a-f. -/
def hexDigitChar (n : Nat) : Char :=
  if n < 10 then Char.ofNat (48 + n) else Char.ofNat (87 + n)

/-- Hex encoding of one byte, two lowercase hex characters, high nibble
first. -/
def byteHex (b : Nat) : List Char :=
  [hexDigitChar ((b % 256) / 16), hexDigitChar (b % 16)]

/-- `secrets.token_hex` applied to explicitly supplied random bytes: the hex
encoding of the byte string.  `secrets.token_hex(16)` in the source is
`token_hex bytes` for some 16-byte draw `bytes`. -/
def token_hex (bytes : List Nat) : String :=
  ⟨(bytes.map byteHex).flatten⟩

/-- A lowercase hexadecimal character. -/
def isHexChar (c : Char) : Bool :=
  c.isDigit || ('a' ≤ c && c ≤ 'f')

/-- Update the first row matching `q` (the row `.first()` returns) with `f`,
leaving every other row unchanged: the ORM mutation of the fetched row
followed by `commit`. -/
def updateFirst (q : User → Bool) (f : User → User) : Store → Store
  | [] => []
  | u :: rest => if q u then f u :: rest else u :: updateFirst q f rest

/-- `POST /signup` (`src/main.py` lines 67-83).  Validates the password first
(an empty password makes the validator raise), then rejects a taken email,
then inserts the new row with no reset token. -/
def signup (s : Store) (email password : String) : Except ApiError Unit × Store :=
  match validate_password password with
  | none => (Except.error ApiError.indexError, s)
  | some false => (Except.error ApiError.weakPassword, s)
  | some true =>
    match s.find? (fun u => u.email == email) with
    | some _ => (Except.error ApiError.emailTaken, s)
    | none =>
      (Except.ok (),
        s ++ [{ id := s.length + 1, email := email, password := password,
                reset_token := none }])

/-- `POST /signin` (`src/main.py` lines 86-93).  Looks the email up and
compares the stored password byte for byte; both an unknown email and a
mismatching password raise the same 401 `Invalid credentials`.  Never
writes. -/
def signin (s : Store) (email password : String) : Except ApiError Unit × Store :=
  match s.find? (fun u => u.email == email) with
  | none => (Except.error ApiError.invalidCredentials, s)
  | some u =>
    if u.password == password then (Except.ok (), s)
    else (Except.error ApiError.invalidCredentials, s)

/-- `POST /forget-password` (`src/main.py` lines 96-106).  404 when the email
is unknown; otherwise hex-encodes the 16 freshly drawn random bytes, stores
the token on the fetched row, and returns the token. -/
def forget_password (s : Store) (bytes : List Nat) (email : String) :
    Except ApiError String × Store :=
  match s.find? (fun u => u.email == email) with
  | none => (Except.error ApiError.emailNotFound, s)
  | some _ =>
    (Except.ok (token_hex bytes),
      updateFirst (fun u => u.email == email)
        (fun u => { u with reset_token := some (token_hex bytes) }) s)

/-- `POST /reset-password` (`src/main.py` lines 109-125).  400 `Invalid token`
when no row's `reset_token` equals the supplied token; then the new password
is validated (an empty one makes the validator raise); then the fetched row's
password is replaced and its token cleared to NULL. -/
def reset_password (s : Store) (token new_password : String) :
    Except ApiError Unit × Store :=
  match s.find? (fun u => u.reset_token == some token) with
  | none => (Except.error ApiError.invalidToken, s)
  | some _ =>
    match validate_password new_password with
    | none => (Except.error ApiError.indexError, s)
    | some false => (Except.error ApiError.weakPassword, s)
    | some true =>
      (Except.ok (),
        updateFirst (fun u => u.reset_token == some token)
          (fun u => { u with password := new_password, reset_token := none }) s)

/-- States reachable from the empty store by any sequence of the four
endpoints, with arbitrary request data and arbitrary random-byte draws; an
erroring call contributes its (unchanged) resulting store like any other. -/
inductive Reachable : Store → Prop where
  | init : Reachable []
  | signup_step (s : Store) (e p : String) :
      Reachable s → Reachable (signup s e p).2
  | signin_step (s : Store) (e p : String) :
      Reachable s → Reachable (signin s e p).2
  | forget_step (s : Store) (b : List Nat) (e : String) :
      Reachable s → Reachable (forget_password s b e).2
  | reset_step (s : Store) (t p : String) :
      Reachable s → Reachable (reset_password s t p).2

/-- Reachability under the freshness assumption on the random oracle: every
token drawn by `forget_password` is held by no current row at draw time (the
intended reading of a 128-bit cryptographically random token). -/
inductive ReachableFresh : Store → Prop where
  | init : ReachableFresh []
  | signup_step (s : Store) (e p : String) :
      ReachableFresh s → ReachableFresh (signup s e p).2
  | signin_step (s : Store) (e p : String) :
      ReachableFresh s → ReachableFresh (signin s e p).2
  | forget_step (s : Store) (b : List Nat) (e : String) :
      ReachableFresh s →
      (∀ u ∈ s, u.reset_token ≠ some (token_hex b)) →
      ReachableFresh (forget_password s b e).2
  | reset_step (s : Store) (t p : String) :
      ReachableFresh s → ReachableFresh (reset_password s t p).2

/-! ## Helper lemmas -/

theorem string_eq_empty_iff (p : String) : p = "" ↔ p.data = [] := by
  constructor
  · intro h; rw [h]
  · intro h; cases p; simp_all

theorem updateFirst_append_cons (q : User → Bool) (f : User → User)
    (s1 s2 : Store) (u : User)
    (hall : ∀ v ∈ s1, q v = false) (hq : q u = true) :
    updateFirst q f (s1 ++ u :: s2) = s1 ++ f u :: s2 := by
  induction s1 with
  | nil => simp [updateFirst, hq]
  | cons a rest ih =>
    have ha : q a = false := hall a (by simp)
    simp only [List.cons_append, updateFirst, ha, Bool.false_eq_true, if_false,
      List.append_eq]
    rw [ih (fun v hv => hall v (by simp [hv]))]

theorem countP_updateFirst_le (q r : User → Bool) (f : User → User)
    (hf : ∀ u, r (f u) = false) (s : Store) :
    (updateFirst q f s).countP r ≤ s.countP r := by
  induction s with
  | nil => simp [updateFirst]
  | cons a rest ih =>
    by_cases hq : q a
    · simp [updateFirst, hq, List.countP_cons, hf a]
    · simp only [updateFirst, hq, Bool.false_eq_true, if_false, List.countP_cons]
      exact Nat.add_le_add_right ih _

theorem countP_updateFirst_fresh (q r : User → Bool) (f : User → User) (s : Store)
    (hall : ∀ u ∈ s, r u = false) :
    (updateFirst q f s).countP r ≤ 1 := by
  induction s with
  | nil => simp [updateFirst]
  | cons a rest ih =>
    by_cases hq : q a
    · have h0 : rest.countP r = 0 :=
        List.countP_eq_zero.mpr (fun u hu => by simp [hall u (List.mem_cons_of_mem _ hu)])
      simp [updateFirst, hq, List.countP_cons, h0]
      by_cases hra : r (f a) <;> simp [hra]
    · have ha : r a = false := hall a (by simp)
      simp [updateFirst, hq, List.countP_cons, ha]
      exact ih (fun u hu => hall u (by simp [hu]))

theorem map_email_updateFirst (q : User → Bool) (f : User → User)
    (hf : ∀ u, (f u).email = u.email) (s : Store) :
    (updateFirst q f s).map User.email = s.map User.email := by
  induction s with
  | nil => rfl
  | cons a rest ih =>
    by_cases hq : q a <;> simp [updateFirst, hq, hf a, ih]

theorem eq_of_mem_of_nodup_email (s : Store) (hnd : (s.map User.email).Nodup)
    {u v : User} (hu : u ∈ s) (hv : v ∈ s) (he : u.email = v.email) : u = v := by
  induction s with
  | nil => cases hu
  | cons a rest ih =>
    rw [List.map_cons, List.nodup_cons] at hnd
    rcases List.mem_cons.mp hu with rfl | hu'
    · rcases List.mem_cons.mp hv with rfl | hv'
      · rfl
      · have : v.email ∈ rest.map User.email := List.mem_map_of_mem _ hv'
        rw [← he] at this
        exact absurd this hnd.1
    · rcases List.mem_cons.mp hv with rfl | hv'
      · have : u.email ∈ rest.map User.email := List.mem_map_of_mem _ hu'
        rw [he] at this
        exact absurd this hnd.1
      · exact ih hnd.2 hu' hv'

theorem token_hex_data (bytes : List Nat) :
    (token_hex bytes).data = (bytes.map byteHex).flatten := rfl

theorem token_hex_length (bytes : List Nat) :
    (token_hex bytes).length = 2 * bytes.length := by
  show ((bytes.map byteHex).flatten).length = 2 * bytes.length
  induction bytes with
  | nil => rfl
  | cons b rest ih =>
    simp only [List.map_cons, List.flatten_cons, List.length_append, ih, byteHex,
      List.length_cons, List.length_nil]
    omega

theorem isHexChar_hexDigitChar (n : Nat) (h : n < 16) :
    isHexChar (hexDigitChar n) = true := by
  interval_cases n <;> decide

theorem token_hex_mem_hex (bytes : List Nat) (c : Char)
    (hc : c ∈ (token_hex bytes).data) : isHexChar c = true := by
  rw [token_hex_data, List.mem_flatten] at hc
  rcases hc with ⟨l, hl, hcl⟩
  rw [List.mem_map] at hl
  rcases hl with ⟨b, -, rfl⟩
  have h1 : (b % 256) / 16 < 16 := by
    have : b % 256 < 256 := Nat.mod_lt _ (by omega)
    omega
  have h2 : b % 16 < 16 := Nat.mod_lt _ (by omega)
  rcases hcl with _ | ⟨_, _ | ⟨_, h⟩⟩
  · exact isHexChar_hexDigitChar _ h1
  · exact isHexChar_hexDigitChar _ h2
  · cases h

/-! ## Claims about the password validator -/

/-- Claim C1: for every password string `p`, `validate_password` returns
`True` exactly when `p` is non-empty, its first character is an uppercase
letter, it contains an `'@'`, and it contains a decimal digit.  (On the empty
string the source raises instead of returning, so it does not return `True`
there either.) -/
theorem C1_validate_password_true_iff (p : String) :
    validate_password p = some true ↔
      (p ≠ "" ∧ (p.data.headD ' ').isUpper = true ∧ p.data.contains '@' = true ∧
        p.data.any Char.isDigit = true) := by
  unfold validate_password
  cases h : p.data with
  | nil =>
    simp [validate_chars, string_eq_empty_iff, h]
  | cons c cs =>
    have hne : p ≠ "" := by
      intro hp
      rw [string_eq_empty_iff] at hp
      rw [hp] at h
      cases h
    by_cases h1 : c.isUpper <;> by_cases h2 : (c :: cs).contains '@' <;>
      by_cases h3 : (c :: cs).any Char.isDigit <;>
      simp [validate_chars, h1, h2, h3, hne] <;> tauto

/-- Claim C2 (evidence of the code bug): on the empty password the source
evaluates `password[0]`, raising `IndexError` (embedded as `none`), instead of
returning `false` after a defensive length check as the spec mandates. -/
theorem C2_validate_password_empty_raises :
    validate_password "" = none := rfl

/-! ## Claims about the service operations -/

/-- Claim C4: `signup` fails with `weakPassword` when the validator rejects
the password; fails with `emailTaken` when the email is already present;
otherwise appends exactly one new user with that email, that password and no
reset token — and registering the same email again afterwards fails with
`emailTaken`.  In every error case the store is returned unchanged. -/
theorem C4_signup_spec (s : Store) (e p : String) :
    (validate_password p = some false →
      signup s e p = (Except.error ApiError.weakPassword, s)) ∧
    (validate_password p = some true → (∃ u ∈ s, u.email = e) →
      signup s e p = (Except.error ApiError.emailTaken, s)) ∧
    (validate_password p = some true → (∀ u ∈ s, u.email ≠ e) →
      ∃ u : User, signup s e p = (Except.ok (), s ++ [u]) ∧
        u.email = e ∧ u.password = p ∧ u.reset_token = none ∧
        ∀ p2, validate_password p2 = some true →
          signup (s ++ [u]) e p2 = (Except.error ApiError.emailTaken, s ++ [u])) := by
  refine ⟨?_, ?_, ?_⟩
  · intro hv
    simp [signup, hv]
  · intro hv hex
    rcases hex with ⟨u, hu, he⟩
    rcases hfind : s.find? (fun v => v.email == e) with _ | w
    · rw [List.find?_eq_none] at hfind
      exact absurd (by simp [he]) (hfind u hu)
    · simp [signup, hv, hfind]
  · intro hv hall
    have hfind : s.find? (fun v => v.email == e) = none :=
      List.find?_eq_none.mpr (fun u hu => by simp [hall u hu])
    refine ⟨{ id := s.length + 1, email := e, password := p, reset_token := none },
      by simp [signup, hv, hfind], rfl, rfl, rfl, ?_⟩
    intro p2 hv2
    simp only [signup, hv2]
    rw [List.find?_append, hfind]
    simp

/-- Claim C4 witness: registering a fresh email in the empty store succeeds
and a second registration of it fails with `emailTaken`. -/
theorem C4_signup_witness :
    ∃ u : User, signup [] "alice" "Secret1@" = (Except.ok (), [] ++ [u]) ∧
      u.email = "alice" ∧ u.password = "Secret1@" ∧ u.reset_token = none ∧
      ∀ p2, validate_password p2 = some true →
        signup ([] ++ [u]) "alice" p2 = (Except.error ApiError.emailTaken, [] ++ [u]) :=
  (C4_signup_spec [] "alice" "Secret1@").2.2 (by decide) (by decide)

/-- Claim C5: `signin` succeeds exactly when a stored user has the given
email and a byte-for-byte equal password; every failure (unknown email or a
wrong password alike) is the single error `invalidCredentials`, with the
store unchanged.  The email-uniqueness invariant of the store is assumed. -/
theorem C5_signin_spec (s : Store) (e p : String)
    (hnd : (s.map User.email).Nodup) :
    ((signin s e p).1 = Except.ok () ↔ ∃ u ∈ s, u.email = e ∧ u.password = p) ∧
    ((signin s e p).1 ≠ Except.ok () →
      signin s e p = (Except.error ApiError.invalidCredentials, s)) := by
  constructor
  · constructor
    · intro hok
      rcases hfind : s.find? (fun v => v.email == e) with _ | u
      · simp [signin, hfind] at hok
      · have hu := List.mem_of_find?_eq_some hfind
        have hue : u.email = e := by simpa using List.find?_some hfind
        by_cases hp : u.password == p
        · exact ⟨u, hu, hue, by simpa using hp⟩
        · simp [signin, hfind, hp] at hok
    · rintro ⟨u, hu, hue, hup⟩
      rcases hfind : s.find? (fun v => v.email == e) with _ | w
      · rw [List.find?_eq_none] at hfind
        exact absurd (by simp [hue]) (hfind u hu)
      · have hw := List.mem_of_find?_eq_some hfind
        have hwe : w.email = e := by simpa using List.find?_some hfind
        have hwu : w = u := eq_of_mem_of_nodup_email s hnd hw hu (by rw [hwe, hue])
        subst hwu
        simp [signin, hfind, hup]
  · intro hne
    rcases hfind : s.find? (fun v => v.email == e) with _ | u
    · simp [signin, hfind]
    · by_cases hp : u.password == p
      · exact absurd (by simp [signin, hfind, hp]) hne
      · simp [signin, hfind, hp]

/-- Claim C5 witness: on a one-user store, signing in with the right password
succeeds and with a wrong password the outcome is `invalidCredentials`. -/
theorem C5_signin_witness :
    ((signin [⟨1, "alice", "Secret1@", none⟩] "alice" "Secret1@").1 = Except.ok () ↔
      ∃ u ∈ [(⟨1, "alice", "Secret1@", none⟩ : User)],
        u.email = "alice" ∧ u.password = "Secret1@") ∧
    ((signin [⟨1, "alice", "Secret1@", none⟩] "alice" "Secret1@").1 ≠ Except.ok () →
      signin [⟨1, "alice", "Secret1@", none⟩] "alice" "Secret1@" =
        (Except.error ApiError.invalidCredentials, [⟨1, "alice", "Secret1@", none⟩])) :=
  C5_signin_spec [⟨1, "alice", "Secret1@", none⟩] "alice" "Secret1@" (by simp)

/-- Claim C6: `forget_password` fails with `emailNotFound` (store unchanged)
when no user has the email; otherwise, for a 16-byte random draw, it produces
a 32-character hexadecimal token, stores it as the found user's reset token
(all other rows unchanged), and returns that same token to the caller. -/
theorem C6_forget_password_spec (s : Store) (bytes : List Nat) (e : String) :
    ((∀ u ∈ s, u.email ≠ e) →
      forget_password s bytes e = (Except.error ApiError.emailNotFound, s)) ∧
    (∀ u : User, s.find? (fun v => v.email == e) = some u → bytes.length = 16 →
      ∃ t s1 s2, forget_password s bytes e =
          (Except.ok t, s1 ++ { u with reset_token := some t } :: s2) ∧
        s = s1 ++ u :: s2 ∧ t.length = 32 ∧ ∀ c ∈ t.data, isHexChar c = true) := by
  constructor
  · intro hall
    have hfind : s.find? (fun v => v.email == e) = none :=
      List.find?_eq_none.mpr (fun u hu => by simp [hall u hu])
    simp [forget_password, hfind]
  · intro u hfind hlen
    obtain ⟨hq, s1, s2, hs, hpref⟩ := List.find?_eq_some.mp hfind
    have hpref' : ∀ v ∈ s1, (v.email == e) = false :=
      fun v hv => by simpa using hpref v hv
    refine ⟨token_hex bytes, s1, s2, ?_, hs, ?_, ?_⟩
    · simp only [forget_password, hfind]
      rw [hs, updateFirst_append_cons _ _ _ _ _ hpref' hq]
    · rw [token_hex_length, hlen]
    · exact fun c hc => token_hex_mem_hex bytes c hc

/-- Claim C6 witness: requesting a reset for the only registered email with a
concrete 16-byte draw yields a 32-character hex token stored on that user. -/
theorem C6_forget_password_witness :
    ∃ t s1 s2, forget_password [⟨1, "alice", "Secret1@", none⟩]
        (List.replicate 16 0) "alice" =
        (Except.ok t,
          s1 ++ { (⟨1, "alice", "Secret1@", none⟩ : User) with
                    reset_token := some t } :: s2) ∧
      [(⟨1, "alice", "Secret1@", none⟩ : User)] =
        s1 ++ (⟨1, "alice", "Secret1@", none⟩ : User) :: s2 ∧
      t.length = 32 ∧ ∀ c ∈ t.data, isHexChar c = true :=
  (C6_forget_password_spec [⟨1, "alice", "Secret1@", none⟩]
    (List.replicate 16 0) "alice").2 ⟨1, "alice", "Secret1@", none⟩
    (by decide) (by decide)

/-- Claim C3: `reset_password` fails with `invalidToken` (store unchanged)
when no user's reset token equals the supplied token; fails with
`weakPassword` (store unchanged) when a user holds it but the validator
rejects the new password; otherwise it sets the holder's password to the new
one, clears the holder's reset token, returns success — and afterwards any
second redemption of the same token fails with `invalidToken` (assuming the
token-uniqueness invariant, that at most one row held the token). -/
theorem C3_reset_password_spec (s : Store) (t p : String) :
    ((∀ u ∈ s, u.reset_token ≠ some t) →
      reset_password s t p = (Except.error ApiError.invalidToken, s)) ∧
    ((∃ u ∈ s, u.reset_token = some t) → validate_password p = some false →
      reset_password s t p = (Except.error ApiError.weakPassword, s)) ∧
    (∀ u : User, s.find? (fun v => v.reset_token == some t) = some u →
      validate_password p = some true →
      s.countP (fun v => v.reset_token == some t) ≤ 1 →
      ∃ s', reset_password s t p = (Except.ok (), s') ∧
        { u with password := p, reset_token := none } ∈ s' ∧
        ∀ p2, reset_password s' t p2 = (Except.error ApiError.invalidToken, s')) := by
  refine ⟨?_, ?_, ?_⟩
  · intro hall
    have hfind : s.find? (fun v => v.reset_token == some t) = none :=
      List.find?_eq_none.mpr (fun u hu => by simp [hall u hu])
    simp [reset_password, hfind]
  · rintro ⟨u, hu, hut⟩ hv
    rcases hfind : s.find? (fun v => v.reset_token == some t) with _ | w
    · rw [List.find?_eq_none] at hfind
      exact absurd (by simp [hut]) (hfind u hu)
    · simp [reset_password, hfind, hv]
  · intro u hfind hv hcount
    obtain ⟨hq, s1, s2, hs, hpref⟩ := List.find?_eq_some.mp hfind
    have hpref' : ∀ v ∈ s1, (v.reset_token == some t) = false :=
      fun v hv => by simpa using hpref v hv
    have hupd : updateFirst (fun v => v.reset_token == some t)
        (fun v => { v with password := p, reset_token := none }) s =
        s1 ++ { u with password := p, reset_token := none } :: s2 := by
      rw [hs]; exact updateFirst_append_cons _ _ _ _ _ hpref' hq
    have hs2count : s2.countP (fun v => v.reset_token == some t) = 0 := by
      rw [hs, List.countP_append, List.countP_cons, hq] at hcount
      simp at hcount
      omega
    have hs2 : ∀ v ∈ s2, (v.reset_token == some t) = false := by
      intro v hv2
      simpa using List.countP_eq_zero.mp hs2count v hv2
    refine ⟨s1 ++ { u with password := p, reset_token := none } :: s2, ?_, by simp, ?_⟩
    · simp only [reset_password, hfind, hv]
      rw [hupd]
    · intro p2
      have hnone : (s1 ++ { u with password := p, reset_token := none } :: s2).find?
          (fun v => v.reset_token == some t) = none := by
        rw [List.find?_eq_none]
        intro v hv2
        rcases List.mem_append.mp hv2 with hv3 | hv3
        · simp [hpref' v hv3]
        · rcases List.mem_cons.mp hv3 with rfl | hv4
          · simp
          · simp [hs2 v hv4]
      simp [reset_password, hnone]

/-- Claim C3 witness: on a one-user store holding token `tok`, redeeming
`tok` with a valid password succeeds, updates the user, and a second
redemption of `tok` fails with `invalidToken`. -/
theorem C3_reset_password_witness :
    ∃ s', reset_password [⟨1, "alice", "Secret1@", some "tok"⟩] "tok" "NewPass2@" =
        (Except.ok (), s') ∧
      { (⟨1, "alice", "Secret1@", some "tok"⟩ : User) with
          password := "NewPass2@", reset_token := none } ∈ s' ∧
      ∀ p2, reset_password s' "tok" p2 = (Except.error ApiError.invalidToken, s') :=
  (C3_reset_password_spec [⟨1, "alice", "Secret1@", some "tok"⟩] "tok" "NewPass2@").2.2
    ⟨1, "alice", "Secret1@", some "tok"⟩ (by decide) (by decide) (by decide)

/-- Claim C7: two sequential `forget_password` calls for the same email
overwrite the outstanding token.  If the two draws yield distinct tokens and
the first token was fresh for the store, then after both calls redeeming the
first (stale) token fails with `invalidToken` while redeeming the second
succeeds (for any password the validator accepts). -/
theorem C7_second_request_invalidates_first (s : Store) (e p : String)
    (b1 b2 : List Nat) (t1 t2 : String) (s1 s2 : Store)
    (h1 : forget_password s b1 e = (Except.ok t1, s1))
    (h2 : forget_password s1 b2 e = (Except.ok t2, s2))
    (hne : t1 ≠ t2)
    (hfresh : ∀ u ∈ s, u.reset_token ≠ some t1)
    (hv : validate_password p = some true) :
    (reset_password s2 t1 p).1 = Except.error ApiError.invalidToken ∧
    ∃ s3, reset_password s2 t2 p = (Except.ok (), s3) := by
  rcases hf1 : s.find? (fun v => v.email == e) with _ | u
  · simp [forget_password, hf1] at h1
  · simp only [forget_password, hf1, Prod.mk.injEq, Except.ok.injEq] at h1
    obtain ⟨ht1, hs1⟩ := h1
    subst ht1
    subst hs1
    obtain ⟨hq, sa, sb, hsplit, hpref⟩ := List.find?_eq_some.mp hf1
    have hpref' : ∀ v ∈ sa, (v.email == e) = false :=
      fun v hv2 => by simpa using hpref v hv2
    have hupd1 : updateFirst (fun v => v.email == e)
        (fun v => { v with reset_token := some (token_hex b1) }) s =
        sa ++ { u with reset_token := some (token_hex b1) } :: sb := by
      rw [hsplit]; exact updateFirst_append_cons _ _ _ _ _ hpref' hq
    rw [hupd1] at h2
    have hfindsa : sa.find? (fun v => v.email == e) = none :=
      List.find?_eq_none.mpr (fun v hv2 => by simp [hpref' v hv2])
    have hf2 : (sa ++ { u with reset_token := some (token_hex b1) } :: sb).find?
        (fun v => v.email == e) = some { u with reset_token := some (token_hex b1) } := by
      rw [List.find?_append, hfindsa, Option.none_or]
      exact List.find?_cons_of_pos _ hq
    simp only [forget_password, hf2, Prod.mk.injEq, Except.ok.injEq] at h2
    obtain ⟨ht2, hs2⟩ := h2
    subst ht2
    subst hs2
    have hupd2 : updateFirst (fun v => v.email == e)
        (fun v => { v with reset_token := some (token_hex b2) })
        (sa ++ { u with reset_token := some (token_hex b1) } :: sb) =
        sa ++ { u with reset_token := some (token_hex b2) } :: sb := by
      exact updateFirst_append_cons _ _ _ _ _ hpref' hq
    rw [hupd2]
    constructor
    · have hnone1 : (sa ++ { u with reset_token := some (token_hex b2) } :: sb).find?
          (fun v => v.reset_token == some (token_hex b1)) = none := by
        rw [List.find?_eq_none]
        intro v hv2
        rcases List.mem_append.mp hv2 with hv3 | hv3
        · have : v ∈ s := by rw [hsplit]; exact List.mem_append_left _ hv3
          simp [hfresh v this]
        · rcases List.mem_cons.mp hv3 with rfl | hv4
          · simp
            exact fun h => hne h.symm
          · have : v ∈ s := by
              rw [hsplit]; exact List.mem_append_right _ (List.mem_cons_of_mem _ hv4)
            simp [hfresh v this]
      simp [reset_password, hnone1]
    · rcases hf3 : (sa ++ { u with reset_token := some (token_hex b2) } :: sb).find?
          (fun v => v.reset_token == some (token_hex b2)) with _ | w
      · rw [List.find?_eq_none] at hf3
        exact absurd (by simp)
          (hf3 { u with reset_token := some (token_hex b2) } (by simp))
      · refine ⟨updateFirst (fun v => v.reset_token == some (token_hex b2))
          (fun v => { v with password := p, reset_token := none })
          (sa ++ { u with reset_token := some (token_hex b2) } :: sb), ?_⟩
        simp [reset_password, hf3, hv]

/-- Claim C7 witness: with a one-user store and the concrete draws `[0]` and
`[1]` (tokens `00` and `01`), redeeming the stale token `00` fails with
`invalidToken` and redeeming `01` succeeds. -/
theorem C7_second_request_invalidates_first_witness :
    (reset_password [⟨1, "alice", "Secret1@", some "01"⟩] "00" "NewPass2@").1 =
      Except.error ApiError.invalidToken ∧
    ∃ s3, reset_password [⟨1, "alice", "Secret1@", some "01"⟩] "01" "NewPass2@" =
      (Except.ok (), s3) :=
  C7_second_request_invalidates_first [⟨1, "alice", "Secret1@", none⟩] "alice"
    "NewPass2@" [0] [1] "00" "01"
    [⟨1, "alice", "Secret1@", some "00"⟩] [⟨1, "alice", "Secret1@", some "01"⟩]
    rfl rfl (by decide) (by decide) (by decide)

theorem signin_snd (s : Store) (e p : String) : (signin s e p).2 = s := by
  rcases hfind : s.find? (fun v => v.email == e) with _ | u
  · simp [signin, hfind]
  · by_cases hp : u.password == p <;> simp [signin, hfind, hp]

/-- Claim C8: email uniqueness is an invariant — in every store reachable
from the empty store by any sequence of the four operations, the list of
stored emails has no duplicate. -/
theorem C8_email_unique_invariant (s : Store) (h : Reachable s) :
    (s.map User.email).Nodup := by
  induction h with
  | init => simp
  | signup_step s e p hr ih =>
    rcases hvp : validate_password p with _ | b
    · simpa [signup, hvp] using ih
    · cases b
      · simpa [signup, hvp] using ih
      · rcases hfind : s.find? (fun v => v.email == e) with _ | u
        · have hall := List.find?_eq_none.mp hfind
          simp only [signup, hvp, hfind, List.map_append]
          rw [List.nodup_append]
          refine ⟨ih, by simp, ?_⟩
          intro a ha hb
          rw [List.mem_map] at ha
          rcases ha with ⟨v, hv, rfl⟩
          have hve : v.email ≠ e := by simpa using hall v hv
          simp at hb
          exact hve hb
        · simpa [signup, hvp, hfind] using ih
  | signin_step s e p hr ih =>
    rw [signin_snd]; exact ih
  | forget_step s b e hr ih =>
    rcases hfind : s.find? (fun v => v.email == e) with _ | u
    · simpa [forget_password, hfind] using ih
    · simp only [forget_password, hfind]
      rw [map_email_updateFirst (fun v => v.email == e)
        (fun v => { v with reset_token := some (token_hex b) }) (fun v => rfl)]
      exact ih
  | reset_step s t p hr ih =>
    rcases hfind : s.find? (fun v => v.reset_token == some t) with _ | u
    · simpa [reset_password, hfind] using ih
    · rcases hvp : validate_password p with _ | b
      · simpa [reset_password, hfind, hvp] using ih
      · cases b
        · simpa [reset_password, hfind, hvp] using ih
        · simp only [reset_password, hfind, hvp]
          rw [map_email_updateFirst (fun v => v.reset_token == some t)
            (fun v => { v with password := p, reset_token := none }) (fun v => rfl)]
          exact ih

/-- Claim C8 witness: the invariant holds at the concrete reachable store
obtained by one successful registration. -/
theorem C8_email_unique_invariant_witness :
    ((signup [] "alice" "Secret1@").2.map User.email).Nodup :=
  C8_email_unique_invariant _
    (Reachable.signup_step [] "alice" "Secret1@" Reachable.init)

/-- Claim C9 counterexample: the claim as stated is false on the code.  The
token generator can repeat a draw, and `forget_password` never checks the
fresh token against tokens already outstanding; the reachable trace
register a, register b, request-reset a (draw `[0]`), request-reset b
(draw `[0]`) leaves two users both holding the non-empty token `00`. -/
theorem C9_token_unique_counterexample :
    ∃ s : Store, Reachable s ∧ ∃ t : String, t ≠ "" ∧
      1 < s.countP (fun u => u.reset_token == some t) := by
  refine ⟨(forget_password (forget_password
      ((signup ((signup [] "a@x" "Pass@1").2) "b@x" "Pass@1").2)
      [0] "a@x").2 [0] "b@x").2, ?_, "00", ?_, ?_⟩
  · exact Reachable.forget_step _ [0] "b@x" (Reachable.forget_step _ [0] "a@x"
      (Reachable.signup_step _ "b@x" "Pass@1"
        (Reachable.signup_step _ "a@x" "Pass@1" Reachable.init)))
  · decide
  · decide

/-- Claim C9 amended: at most one user holds any given reset-token value in
every state reachable when every token drawn by `forget_password` is fresh —
held by no current row at draw time (the intended behaviour of the 128-bit
random source); without that freshness assumption a repeated draw can leave
two users holding the same token. -/
theorem C9_token_unique_fresh (s : Store) (h : ReachableFresh s) (t : String) :
    s.countP (fun u => u.reset_token == some t) ≤ 1 := by
  induction h with
  | init => simp
  | signup_step s e p hr ih =>
    rcases hvp : validate_password p with _ | b
    · simpa [signup, hvp] using ih
    · cases b
      · simpa [signup, hvp] using ih
      · rcases hfind : s.find? (fun v => v.email == e) with _ | u
        · simpa [signup, hvp, hfind, List.countP_append, List.countP_cons] using ih
        · simpa [signup, hvp, hfind] using ih
  | signin_step s e p hr ih =>
    rw [signin_snd]; exact ih
  | forget_step s b e hr hfresh ih =>
    rcases hfind : s.find? (fun v => v.email == e) with _ | u
    · simpa [forget_password, hfind] using ih
    · simp only [forget_password, hfind]
      by_cases ht : t = token_hex b
      · subst ht
        exact countP_updateFirst_fresh _ _ _ s
          (fun v hv => by simpa using hfresh v hv)
      · refine le_trans (countP_updateFirst_le _ _ _ ?_ s) ih
        intro v
        simp
        exact fun hh => ht hh.symm
  | reset_step s t2 p hr ih =>
    rcases hfind : s.find? (fun v => v.reset_token == some t2) with _ | u
    · simpa [reset_password, hfind] using ih
    · rcases hvp : validate_password p with _ | b
      · simpa [reset_password, hfind, hvp] using ih
      · cases b
        · simpa [reset_password, hfind, hvp] using ih
        · simp only [reset_password, hfind, hvp]
          refine le_trans (countP_updateFirst_le _ _ _ ?_ s) ih
          intro v
          simp

/-- Claim C9 amended witness: the bound holds at the concrete fresh-reachable
store obtained by one registration and one reset request with draw `[0]`. -/
theorem C9_token_unique_fresh_witness :
    ((forget_password ((signup [] "a@x" "Pass@1").2) [0] "a@x").2.countP
      (fun u => u.reset_token == some "00")) ≤ 1 :=
  C9_token_unique_fresh _
    (ReachableFresh.forget_step _ [0] "a@x"
      (ReachableFresh.signup_step _ "a@x" "Pass@1" ReachableFresh.init)
      (by decide)) "00"

/-- Claim C10: whenever an operation returns one of the documented errors
(anything but the undocumented `indexError` crash), the store it returns is
exactly the input store, and `signin` returns the input store
unconditionally. -/
theorem C10_errors_leave_store_unchanged (s : Store) (e p t : String)
    (b : List Nat) (err : ApiError) (_hdoc : err ≠ ApiError.indexError) :
    ((signup s e p).1 = Except.error err → (signup s e p).2 = s) ∧
    (signin s e p).2 = s ∧
    ((forget_password s b e).1 = Except.error err →
      (forget_password s b e).2 = s) ∧
    ((reset_password s t p).1 = Except.error err →
      (reset_password s t p).2 = s) := by
  refine ⟨?_, signin_snd s e p, ?_, ?_⟩
  · rcases hvp : validate_password p with _ | bb
    · simp [signup, hvp]
    · cases bb
      · simp [signup, hvp]
      · rcases hfind : s.find? (fun v => v.email == e) with _ | u <;>
          simp [signup, hvp, hfind]
  · rcases hfind : s.find? (fun v => v.email == e) with _ | u <;>
      simp [forget_password, hfind]
  · rcases hfind : s.find? (fun v => v.reset_token == some t) with _ | u
    · simp [reset_password, hfind]
    · rcases hvp : validate_password p with _ | bb
      · simp [reset_password, hfind, hvp]
      · cases bb <;> simp [reset_password, hfind, hvp]

/-- Claim C10 witness: instantiation at the empty store, where every
operation errs and indeed returns the empty store. -/
theorem C10_errors_leave_store_unchanged_witness :
    ((signup [] "a" "P@1").1 = Except.error ApiError.weakPassword →
      (signup [] "a" "P@1").2 = []) ∧
    (signin [] "a" "P@1").2 = [] ∧
    ((forget_password [] [] "a").1 = Except.error ApiError.weakPassword →
      (forget_password [] [] "a").2 = []) ∧
    ((reset_password [] "x" "P@1").1 = Except.error ApiError.weakPassword →
      (reset_password [] "x" "P@1").2 = []) :=
  C10_errors_leave_store_unchanged [] "a" "P@1" "x" [] ApiError.weakPassword
    (by decide)

end Loging
